import Mathlib

/-!
Verification model of the nonlinear pressure-iteration engine in
dune/porsol/mimetic/TpfaCompressible.hpp (class Dune::TpfaCompressible).

Numbers: C++ double is modelled by the rationals.  The only places where IEEE
non-finiteness matters to the verified claims are divisions whose denominator
can be exactly zero; those divisions are modelled by an Option-valued division
(fdiv) that returns none exactly when the C++ code would produce a non-finite
value (inf or NaN).  A comparison of a non-finite value with a tolerance is
false in IEEE arithmetic, which the model mirrors (optLt none t = false).

External collaborators (grid, rock, fluid equation of state, the assembler
TPFACompressiblePressureSolver and the linear solver LinearSolverISTL) are out
of scope of this repository and are modelled as oracle functions bundled in
the Oracles structure.  Everything that the repository source itself computes
(loop control, the volume-discrepancy rejection, relaxation, the convergence
metrics, the well perforation pressures, the per-perforation fluid-property
dispatch) is translated directly from the source.
-/

set_option autoImplicit false

namespace TpfaCompressible

/-! ### Scalar and list helpers -/

/-- Largest element of a list, mirroring dereferencing std::max_element.
The C++ call requires a nonempty range; the empty case returns a junk value 0
and is never relied upon where the source assumes nonemptiness. -/
def listMaxD : List ℚ → ℚ
  | [] => 0
  | x :: t => t.foldl max x

/-- Smallest element of a list, mirroring dereferencing std::min_element. -/
def listMinD : List ℚ → ℚ
  | [] => 0
  | x :: t => t.foldl min x

/-- Division of doubles, with the denominator-zero case marked: IEEE division
by zero yields a non-finite value (inf or NaN), modelled as none. -/
def fdiv (a b : ℚ) : Option ℚ :=
  if b = 0 then none else some (a / b)

/-- Comparison `m < t` where m may be non-finite: in IEEE arithmetic a
comparison with NaN is false, and the only none values reaching this test in
the model arise as 0/0 or x/0 (NaN or inf, and inf < t is false for the
tolerances at hand; the source compares against small positive tolerances
while x/0 with x > 0 is +inf).  The model takes none < t to be false. -/
def optLt (m : Option ℚ) (t : ℚ) : Bool :=
  match m with
  | some v => decide (v < t)
  | none => false

/-- Componentwise sum of two phase vectors (PhaseVec operator+=). -/
def vecAdd (a b : List ℚ) : List ℚ :=
  (a.zip b).map fun p => p.1 + p.2

/-- Scaling of a phase vector (PhaseVec operator*=). -/
def vecScale (c : ℚ) (v : List ℚ) : List ℚ :=
  v.map fun x => c * x

/-- Componentwise product summed, used for the phase loop
`for phase: acc += sat[phase] * gpot[numPhases*perf + phase]`. -/
def dotQ (a b : List ℚ) : ℚ :=
  ((a.zip b).map fun p => p.1 * p.2).foldl (fun s x => s + x) 0

/-! ### computeFluxPressChanges (TpfaCompressible.hpp lines 646-684)

Static pure function of two consecutive iteration states.  The source takes
max(fabs(*min_element(r)), fabs(*max_element(r))) as the maximum absolute
value of a range r, computes the infinity norm of the change by folding max
over faces and then over well perforations with a single accumulator starting
at 0, and finally divides.  The divisions have no guard: a zero maximum flux
(or pressure) magnitude gives a non-finite result, hence the Option values. -/

/-- Relative flux and pressure change between two consecutive iterations,
translated from TpfaCompressible::computeFluxPressChanges.  Arguments are in
source order: current face fluxes, current well perforation fluxes, current
scalar cell pressures, then the three corresponding start-of-iteration
vectors. -/
def computeFluxPressChanges (face_flux well_perf_fluxes cell_pressure_scalar
    start_face_flux start_perf_flux start_cell_press : List ℚ) :
    Option ℚ × Option ℚ :=
  let max_flux_face := max |listMinD face_flux| |listMaxD face_flux|
  let max_flux_perf := if well_perf_fluxes = [] then 0
    else max |listMinD well_perf_fluxes| |listMaxD well_perf_fluxes|
  let max_flux := max max_flux_face max_flux_perf
  let max_press := max |listMinD cell_pressure_scalar| |listMaxD cell_pressure_scalar|
  let flux_change_infnorm :=
    ((face_flux.zip start_face_flux) ++ (well_perf_fluxes.zip start_perf_flux)).foldl
      (fun m p => max m |p.1 - p.2|) 0
  let press_change_infnorm :=
    (cell_pressure_scalar.zip start_cell_press).foldl (fun m p => max m |p.1 - p.2|) 0
  (fdiv flux_change_infnorm max_flux, fdiv press_change_infnorm max_press)

/-! ### computeWellPerfPressures (TpfaCompressible.hpp lines 688-721)

The source first accumulates, per well, the total perforation flux and the
flux-weighted sum of perforation saturations, then multiplies the sum by
1.0/well_flux (no guard: a zero total flux gives a non-finite average), and
finally sets each perforation pressure to the bottomhole pressure of its well
plus the phase-wise product of the averaged saturation with the gravity
potential of the perforation.  The per-well accumulation over a single pass of
the perforation array is rendered as a fold over the sublist of perforations
of that well, which performs the same additions in the same order. -/

/-- Record grouping the per-perforation data consumed by
computeWellPerfPressures: owning well index (perf_wells_), perforation flux
(well_perf_fluxes), saturation (perf_sat_) and gravity potential (perf_gpot_,
flat phase-major storage rendered as one vector per perforation). -/
structure Perf where
  well : ℕ
  flux : ℚ
  sat : List ℚ
  gpot : List ℚ
deriving Repr, DecidableEq

/-- Total perforation flux of well w (the well_flux accumulation loop). -/
def wellTotalFlux (perfs : List Perf) (w : ℕ) : ℚ :=
  (perfs.filter fun p => p.well == w).foldl (fun s p => s + p.flux) 0

/-- Flux-weighted saturation sum of well w (the well_sat accumulation loop,
starting from PhaseVec(0.0)). -/
def wellSatFluxSum (numPhases : ℕ) (perfs : List Perf) (w : ℕ) : List ℚ :=
  (perfs.filter fun p => p.well == w).foldl
    (fun acc p => vecAdd acc (vecScale p.flux p.sat)) (List.replicate numPhases 0)

/-- Averaged saturation of well w: well_sat[well] *= 1.0/well_flux[well].
When the total flux is zero the C++ code divides by zero and the averaged
saturations are non-finite, modelled as none. -/
def wellAvgSat (numPhases : ℕ) (perfs : List Perf) (w : ℕ) : Option (List ℚ) :=
  let wf := wellTotalFlux perfs w
  if wf = 0 then none
  else some (vecScale (1 / wf) (wellSatFluxSum numPhases perfs w))

/-- Perforation pressures, translated from
TpfaCompressible::computeWellPerfPressures: bottomhole pressure of the owning
well plus the saturation-weighted sum of the gravity potentials over phases.
An entry is none when the averaged saturation of its well is non-finite. -/
def computeWellPerfPressures (numPhases : ℕ) (perfs : List Perf)
    (well_bhp : List ℚ) : List (Option ℚ) :=
  perfs.map fun p =>
    match wellAvgSat numPhases perfs p.well with
    | none => none
    | some sat => some (well_bhp.getD p.well 0 + dotQ sat p.gpot)

/-- Assembly of the Perf records from the parallel arrays the driver holds:
perf_wells_, the freshly computed well_perf_fluxes, perf_sat_ and perf_gpot_.
Entries are paired positionally, as the flat arrays are in the source. -/
def mkPerfs : List ℕ → List ℚ → List (List ℚ) → List (List ℚ) → List Perf
  | w :: ws, f :: fs, s :: ss, g :: gs => ⟨w, f, s, g⟩ :: mkPerfs ws fs ss gs
  | _, _, _, _ => []

/-! ### Per-perforation fluid property dispatch
(TpfaCompressible::computeFluidProps, lines 527-557)

The cell and face part delegates to the external FluidData::compute and is
out of scope; the perforation loop below is repository code.  For every well,
for every local perforation index perf of that well, the source computes

  well_pressure = inj ? PhaseVec(perf_pressure_[perf]) : phase_pressure[cell]
  well_mixture  = inj ? injectionMixture(cell)           : cell_z[cell]

and calls the external fluid evaluator computeState on that pair, storing the
results at the running global perforation counter perfcount.  Note that the
injector branch indexes perf_pressure_ (a globally indexed array, filled from
well_perf_pressures) with the well-local loop variable perf, not with
perfcount.  Out-of-range reads (undefined behaviour in C++) are rendered with
getD and a default, and never arise at the inputs used by the theorems. -/

/-- Specification of one well as seen by computeFluidProps: its type flag and
the grid cell of each of its perforations (wellCell(well, perf)). -/
structure WellSpec where
  isInjector : Bool
  perfCells : List ℕ
deriving Repr

/-- Result of the external computeState call: saturation, mobility and the
phase-to-component matrix (flat storage rendered as a list). -/
structure FluidState where
  saturation : List ℚ
  mobility : List ℚ
  A : List ℚ
deriving Repr, DecidableEq

/-- Perforation part of TpfaCompressible::computeFluidProps.  Output list is
indexed by the global perforation counter perfcount; entry perfcount holds the
fluid state stored into perf_A_, perf_mob_, perf_sat_ at that position.
computeState is the external fluid evaluator, injectionMixture is
pwells_->injectionMixture per cell, phase_pressure and cell_z are per-cell
vectors, perf_pressure is the globally indexed perf_pressure_ array. -/
def computePerfProps (numPhases : ℕ)
    (computeState : List ℚ → List ℚ → FluidState)
    (injectionMixture : ℕ → List ℚ)
    (wells : List WellSpec)
    (phase_pressure : List (List ℚ))
    (cell_z : List (List ℚ))
    (perf_pressure : List ℚ) : List FluidState :=
  wells.foldl
    (fun acc wspec =>
      acc ++ (List.range wspec.perfCells.length).map fun perf =>
        let cell := wspec.perfCells.getD perf 0
        let well_pressure := if wspec.isInjector
          then List.replicate numPhases (perf_pressure.getD perf 0)
          else phase_pressure.getD cell []
        let well_mixture := if wspec.isInjector
          then injectionMixture cell
          else cell_z.getD cell []
        computeState well_pressure well_mixture)
    []

/-! ### The solve driver (TpfaCompressible::solve, lines 277-444)

Everything the driver delegates to collaborators outside this repository is an
oracle:

  * fluidProps — FluidData::compute plus the perforation loop above, returning
    the fields of fp_ that the driver control flow reads (voldiscr,
    relvoldiscr) and the perforation saturations needed by
    computeWellPerfPressures.  The remaining fp_ fields (totcompr, cellA,
    faceA, phasemobf, gravcapf, ...) are consumed only by the external
    assembler and are absorbed into the linearize oracle.
  * wellPotentials — computeWellPotentials (lines 621-641), which reads only
    grid geometry, well reference depths and the external phaseDensities, all
    out of scope; invoked once, on iteration 0, as in the source.
  * linearize — one linearization step: on the standard path the external
    assemble + linearSystem + linsolver_.solve + computePressuresAndFluxes;
    on the experimental path computeResidualJacobian + linsolver_.solve + the
    increment-to-absolute fixup + computePressuresAndFluxes.  Both paths
    consist of external calls threaded with data; the oracle returns the
    convergence flag of the linear solver together with the updated scalar
    pressures, fluxes and bottomhole pressures.  The driver throws (fatal,
    modelled as SolveResult.fatal) when the flag is false, before any further
    state is produced.
-/

/-- Return codes of solve (enum ReturnCode, line 236). -/
inductive ReturnCode
  | SolveOk
  | VolumeDiscrepancyTooLarge
  | FailedToConverge
deriving Repr, DecidableEq

/-- Run-time parameters bound in init (lines 80-87). -/
structure Config where
  flux_rel_tol : ℚ
  press_rel_tol : ℚ
  max_num_iter : ℕ
  max_relative_voldiscr : ℚ
  relax_time_voldiscr : ℚ
  relax_weight_pressure_iteration : ℚ
  experimental_jacobian : Bool

/-- Unchanging data established in setup: the phase count, the well count
(pwells_->numWells), the face count (pgrid_->numFaces) and the owning well of
each global perforation index (perf_wells_). -/
structure Setup where
  numPhases : ℕ
  num_wells : ℕ
  num_faces : ℕ
  perf_wells : List ℕ

/-- Fields of the fluid snapshot fp_ read by the driver itself, plus the
perforation saturations perf_sat_ filled by computeFluidProps. -/
structure FluidData where
  voldiscr : List ℚ
  relvoldiscr : List ℚ
  perf_sat : List (List ℚ)

/-- Output of one linearization step (see the oracle description above). -/
structure LinearizeResult where
  converged : Bool
  cell_pressure : List ℚ
  face_pressure : List ℚ
  face_flux : List ℚ
  well_bhp : List ℚ
  well_perf_fluxes : List ℚ

/-- Mutable iteration state of solve.  Phase-vector pressures are kept
alongside their scalar forms: computeFluidProps reads the phase vectors, and
the publish step (lines 406-412) overwrites each phase entry with the scalar
value.  The perforation pressure array perf_pressure_ may hold non-finite
values produced by computeWellPerfPressures, hence Option entries. -/
structure SolveState where
  cell_pressure_phase : List (List ℚ)
  face_pressure_phase : List (List ℚ)
  cell_pressure_scalar : List ℚ
  face_pressure_scalar : List ℚ
  face_flux : List ℚ
  well_bhp : List ℚ
  well_perf_fluxes : List ℚ
  perf_pressure : List (Option ℚ)

/-- Oracle bundle for the external collaborators; see the section comment. -/
structure Oracles where
  fluidProps : SolveState → List (List ℚ) → ℚ → FluidData
  wellPotentials : FluidData → List (List ℚ)
  linearize : Bool → ℕ → List ℚ → List ℚ → List (List ℚ) → FluidData → SolveState →
    LinearizeResult

/-- Pointwise relaxation blend ww*fresh + (1-ww)*old (lines 396, 400-401). -/
def blend (w : ℚ) (fresh old : List ℚ) : List ℚ :=
  (fresh.zip old).map fun p => w * p.1 + (1 - w) * p.2

/-- Relaxation block of solve (lines 392-404): when the configured weight
differs from 1, cell pressures are blended on every iteration while face
pressures and face fluxes are blended only for iter > 0.  Returns the
(cell pressure, face pressure, face flux) triple actually kept. -/
def relaxVals (w : ℚ) (iter : ℕ) (lin : LinearizeResult) (st : SolveState) :
    List ℚ × List ℚ × List ℚ :=
  if w ≠ 1 then
    let cp := blend w lin.cell_pressure st.cell_pressure_scalar
    if 0 < iter then
      (cp, blend w lin.face_pressure st.face_pressure_scalar,
        blend w lin.face_flux st.face_flux)
    else
      (cp, lin.face_pressure, lin.face_flux)
  else
    (lin.cell_pressure, lin.face_pressure, lin.face_flux)

/-- Outcome of one pass through the loop body: rejection by the iteration-0
volume-discrepancy check (return at line 323), a fatal linear-solver failure
(THROW at lines 360, 383), successful convergence (return at line 439), or
continuation with the updated state and the iteration-0 data
(initial_voldiscr, perf_gpot_) to carry forward. -/
inductive StepRes
  | volDisc
  | linFail
  | done (st : SolveState)
  | next (st : SolveState) (iv : List ℚ) (gpot : List (List ℚ))

/-- Discriminator for the continuation outcome of a loop body. -/
def StepRes.isNext : StepRes → Bool
  | .next _ _ _ => true
  | _ => false

/-- Initial volume discrepancy carried by the loop: captured from the fluid
snapshot on iteration 0 and, when a positive relaxation time constant is
configured, scaled by min(1, dt / relax_time_voldiscr) (lines 319, 325-329);
passed through unchanged on later iterations. -/
def ivAt (cfg : Config) (dt : ℚ) (fp : FluidData) (iter : ℕ) (iv0 : List ℚ) :
    List ℚ :=
  if iter = 0 then
    (if 0 < cfg.relax_time_voldiscr then
      vecScale (min 1 (dt / cfg.relax_time_voldiscr)) fp.voldiscr
    else fp.voldiscr)
  else iv0

/-- Gravity potentials carried by the loop: computed by computeWellPotentials
once, on iteration 0 (line 334), and passed through afterwards. -/
def gpotAt (orc : Oracles) (fp : FluidData) (iter : ℕ)
    (gpot0 : List (List ℚ)) : List (List ℚ) :=
  if iter = 0 then orc.wellPotentials fp else gpot0

/-- Body of the main iteration loop of solve (lines 309-441) for iteration
index iter.  p0 is cell_pressure_scalar_initial; iv0 and gpot0 are the values
of initial_voldiscr and perf_gpot_ carried from earlier iterations (unused
when iter = 0, where both are computed). -/
def iterStep (cfg : Config) (su : Setup) (orc : Oracles) (dt : ℚ)
    (cell_z : List (List ℚ)) (p0 : List ℚ) (iter : ℕ) (iv0 : List ℚ)
    (gpot0 : List (List ℚ)) (st : SolveState) : StepRes :=
  let fp := orc.fluidProps st cell_z dt
  if iter = 0 ∧ cfg.max_relative_voldiscr < listMaxD fp.relvoldiscr then
    StepRes.volDisc
  else
    let iv := ivAt cfg dt fp iter iv0
    let gpot := gpotAt orc fp iter gpot0
    let lin := orc.linearize cfg.experimental_jacobian iter p0 iv gpot fp st
    if lin.converged then
      let rv := relaxVals cfg.relax_weight_pressure_iteration iter lin st
      let cp := rv.1
      let fpr := rv.2.1
      let ff := rv.2.2
      let wpp := computeWellPerfPressures su.numPhases
        (mkPerfs su.perf_wells lin.well_perf_fluxes fp.perf_sat gpot) lin.well_bhp
      let st2 : SolveState :=
        { cell_pressure_phase := cp.map fun s => List.replicate su.numPhases s
          face_pressure_phase := fpr.map fun s => List.replicate su.numPhases s
          cell_pressure_scalar := cp
          face_pressure_scalar := fpr
          face_flux := ff
          well_bhp := lin.well_bhp
          well_perf_fluxes := lin.well_perf_fluxes
          perf_pressure := wpp }
      let rc := computeFluxPressChanges ff lin.well_perf_fluxes cp
        st.face_flux st.well_perf_fluxes st.cell_pressure_scalar
      if optLt rc.1 cfg.flux_rel_tol || optLt rc.2 cfg.press_rel_tol then
        StepRes.done st2
      else
        StepRes.next st2 iv gpot
    else
      StepRes.linFail

/-- Result of solve: either one of the three return codes or the fatal
exception thrown on linear-solver non-convergence.  iters counts the loop
bodies entered and nsolves the linear solves performed, instrumenting the
control flow the claims speak about. -/
inductive SolveResult
  | ok (code : ReturnCode) (iters : ℕ) (nsolves : ℕ)
  | fatal (iters : ℕ) (nsolves : ℕ)
deriving Repr, DecidableEq

/-- Iteration count of a solve result. -/
def SolveResult.itersOf : SolveResult → ℕ
  | .ok _ i _ => i
  | .fatal i _ => i

/-- Linear-solve count of a solve result. -/
def SolveResult.solvesOf : SolveResult → ℕ
  | .ok _ _ s => s
  | .fatal _ s => s

/-- Main iteration loop: iter is the current iteration index, r the number of
iterations remaining out of max_num_iter.  Falling off the loop returns
FailedToConverge (line 443). -/
def solveLoop (cfg : Config) (su : Setup) (orc : Oracles) (dt : ℚ)
    (cell_z : List (List ℚ)) (p0 : List ℚ) :
    ℕ → ℕ → List ℚ → List (List ℚ) → SolveState → SolveResult
  | _iter, 0, _iv, _gpot, _st => SolveResult.ok ReturnCode.FailedToConverge 0 0
  | iter, r + 1, iv, gpot, st =>
    match iterStep cfg su orc dt cell_z p0 iter iv gpot st with
    | StepRes.volDisc => SolveResult.ok ReturnCode.VolumeDiscrepancyTooLarge 1 0
    | StepRes.linFail => SolveResult.fatal 1 1
    | StepRes.done _ => SolveResult.ok ReturnCode.SolveOk 1 1
    | StepRes.next st2 iv2 gpot2 =>
      match solveLoop cfg su orc dt cell_z p0 (iter + 1) r iv2 gpot2 st2 with
      | SolveResult.ok c i s => SolveResult.ok c (i + 1) (s + 1)
      | SolveResult.fatal i s => SolveResult.fatal (i + 1) (s + 1)

/-- Initial iteration state assembled by solve before the loop (lines
286-306): scalar cell pressures from the Liquid phase entry of the input
phase pressures, zero face pressures and fluxes of length numFaces, zero
bottomhole pressures of length numWells, perforation fluxes and pressures
from the caller (perf_pressure_ = well_perf_pressures). -/
def solveInitState (su : Setup) (liquidIdx : ℕ)
    (cell_pressure face_pressure : List (List ℚ))
    (well_perf_pressures well_perf_fluxes : List ℚ) : SolveState :=
  { cell_pressure_phase := cell_pressure
    face_pressure_phase := face_pressure
    cell_pressure_scalar := cell_pressure.map fun pv => pv.getD liquidIdx 0
    face_pressure_scalar := List.replicate su.num_faces 0
    face_flux := List.replicate su.num_faces 0
    well_bhp := List.replicate su.num_wells 0
    well_perf_fluxes := well_perf_fluxes
    perf_pressure := well_perf_pressures.map some }

/-- Driver entry point, translated from TpfaCompressible::solve.  liquidIdx is
the FluidInterface::Liquid phase index used to extract the initial scalar
pressures. -/
def solve (cfg : Config) (su : Setup) (orc : Oracles) (liquidIdx : ℕ)
    (cell_pressure face_pressure cell_z : List (List ℚ))
    (well_perf_pressures well_perf_fluxes : List ℚ) (dt : ℚ) : SolveResult :=
  let st0 := solveInitState su liquidIdx cell_pressure face_pressure
    well_perf_pressures well_perf_fluxes
  let p0 := cell_pressure.map fun pv => pv.getD liquidIdx 0
  solveLoop cfg su orc dt cell_z p0 0 cfg.max_num_iter [] [] st0

/-! ### Reference variant without relaxation (for the refinement claim)

The definitions below follow the words of the specification: the same
iteration with the relaxation step absent altogether, keeping the freshly
computed cell pressures, face pressures and face fluxes on every iteration.
They differ from iterStep and solveLoop only in the removed relaxation
block. -/

/-- Loop body with the relaxation block removed: the freshly computed values
of the linearization are always kept. -/
def iterStepNoRelax (cfg : Config) (su : Setup) (orc : Oracles) (dt : ℚ)
    (cell_z : List (List ℚ)) (p0 : List ℚ) (iter : ℕ) (iv0 : List ℚ)
    (gpot0 : List (List ℚ)) (st : SolveState) : StepRes :=
  let fp := orc.fluidProps st cell_z dt
  if iter = 0 ∧ cfg.max_relative_voldiscr < listMaxD fp.relvoldiscr then
    StepRes.volDisc
  else
    let iv := ivAt cfg dt fp iter iv0
    let gpot := gpotAt orc fp iter gpot0
    let lin := orc.linearize cfg.experimental_jacobian iter p0 iv gpot fp st
    if lin.converged then
      let cp := lin.cell_pressure
      let fpr := lin.face_pressure
      let ff := lin.face_flux
      let wpp := computeWellPerfPressures su.numPhases
        (mkPerfs su.perf_wells lin.well_perf_fluxes fp.perf_sat gpot) lin.well_bhp
      let st2 : SolveState :=
        { cell_pressure_phase := cp.map fun s => List.replicate su.numPhases s
          face_pressure_phase := fpr.map fun s => List.replicate su.numPhases s
          cell_pressure_scalar := cp
          face_pressure_scalar := fpr
          face_flux := ff
          well_bhp := lin.well_bhp
          well_perf_fluxes := lin.well_perf_fluxes
          perf_pressure := wpp }
      let rc := computeFluxPressChanges ff lin.well_perf_fluxes cp
        st.face_flux st.well_perf_fluxes st.cell_pressure_scalar
      if optLt rc.1 cfg.flux_rel_tol || optLt rc.2 cfg.press_rel_tol then
        StepRes.done st2
      else
        StepRes.next st2 iv gpot
    else
      StepRes.linFail

/-- Iteration loop of the unrelaxed variant. -/
def solveLoopNoRelax (cfg : Config) (su : Setup) (orc : Oracles) (dt : ℚ)
    (cell_z : List (List ℚ)) (p0 : List ℚ) :
    ℕ → ℕ → List ℚ → List (List ℚ) → SolveState → SolveResult
  | _iter, 0, _iv, _gpot, _st => SolveResult.ok ReturnCode.FailedToConverge 0 0
  | iter, r + 1, iv, gpot, st =>
    match iterStepNoRelax cfg su orc dt cell_z p0 iter iv gpot st with
    | StepRes.volDisc => SolveResult.ok ReturnCode.VolumeDiscrepancyTooLarge 1 0
    | StepRes.linFail => SolveResult.fatal 1 1
    | StepRes.done _ => SolveResult.ok ReturnCode.SolveOk 1 1
    | StepRes.next st2 iv2 gpot2 =>
      match solveLoopNoRelax cfg su orc dt cell_z p0 (iter + 1) r iv2 gpot2 st2 with
      | SolveResult.ok c i s => SolveResult.ok c (i + 1) (s + 1)
      | SolveResult.fatal i s => SolveResult.fatal (i + 1) (s + 1)

/-- Driver entry point of the unrelaxed variant. -/
def solveNoRelax (cfg : Config) (su : Setup) (orc : Oracles) (liquidIdx : ℕ)
    (cell_pressure face_pressure cell_z : List (List ℚ))
    (well_perf_pressures well_perf_fluxes : List ℚ) (dt : ℚ) : SolveResult :=
  let st0 := solveInitState su liquidIdx cell_pressure face_pressure
    well_perf_pressures well_perf_fluxes
  let p0 := cell_pressure.map fun pv => pv.getD liquidIdx 0
  solveLoopNoRelax cfg su orc dt cell_z p0 0 cfg.max_num_iter [] [] st0

/-! ### Helper lemmas on folds, extrema and the marked division -/

theorem foldl_maxf_le_iff {α : Type} (g : α → ℚ) :
    ∀ (l : List α) (a c : ℚ),
      l.foldl (fun m x => max m (g x)) a ≤ c ↔ a ≤ c ∧ ∀ x ∈ l, g x ≤ c := by
  intro l
  induction l with
  | nil => intro a c; simp
  | cons x t ih =>
    intro a c
    simp only [List.foldl_cons, ih, max_le_iff, List.mem_cons]
    constructor
    · rintro ⟨⟨h1, h2⟩, h3⟩
      exact ⟨h1, fun y hy => hy.elim (fun e => e ▸ h2) (h3 y)⟩
    · rintro ⟨h1, h2⟩
      exact ⟨⟨h1, h2 x (Or.inl rfl)⟩, fun y hy => h2 y (Or.inr hy)⟩

theorem foldl_maxf_init_le {α : Type} (g : α → ℚ) (l : List α) (a : ℚ) :
    a ≤ l.foldl (fun m x => max m (g x)) a :=
  ((foldl_maxf_le_iff g l a _).mp le_rfl).1

theorem mem_le_foldl_maxf {α : Type} (g : α → ℚ) (l : List α) (a : ℚ) {x : α}
    (hx : x ∈ l) : g x ≤ l.foldl (fun m x => max m (g x)) a :=
  ((foldl_maxf_le_iff g l a _).mp le_rfl).2 x hx

theorem foldl_maxf_comm {α : Type} (g : α → ℚ) :
    ∀ (l : List α) (a b : ℚ),
      l.foldl (fun m x => max m (g x)) (max a b) =
        max a (l.foldl (fun m x => max m (g x)) b) := by
  intro l
  induction l with
  | nil => intro a b; simp
  | cons x t ih =>
    intro a b
    simp only [List.foldl_cons, max_assoc]
    exact ih a (max b (g x))

theorem foldl_maxf_append {α : Type} (g : α → ℚ) (l1 l2 : List α) :
    (l1 ++ l2).foldl (fun m x => max m (g x)) 0 =
      max (l1.foldl (fun m x => max m (g x)) 0)
        (l2.foldl (fun m x => max m (g x)) 0) := by
  rw [List.foldl_append]
  have h0 : l1.foldl (fun m x => max m (g x)) 0 =
      max (l1.foldl (fun m x => max m (g x)) 0) 0 :=
    (max_eq_left (foldl_maxf_init_le g l1 0)).symm
  conv_lhs => rw [h0]
  rw [foldl_maxf_comm]

theorem foldl_maxf_eq_zero_iff {α : Type} (g : α → ℚ) (hg : ∀ x, 0 ≤ g x)
    (l : List α) :
    l.foldl (fun m x => max m (g x)) 0 = 0 ↔ ∀ x ∈ l, g x = 0 := by
  constructor
  · intro h x hx
    exact le_antisymm (h ▸ mem_le_foldl_maxf g l 0 hx) (hg x)
  · intro h
    exact le_antisymm
      ((foldl_maxf_le_iff g l 0 0).mpr ⟨le_rfl, fun x hx => (h x hx).le⟩)
      (foldl_maxf_init_le g l 0)

theorem le_listMaxD {xs : List ℚ} {a : ℚ} (ha : a ∈ xs) : a ≤ listMaxD xs := by
  cases xs with
  | nil => cases ha
  | cons x t =>
    have key : t.foldl (fun m v => max m v) x ≤ listMaxD (x :: t) := le_rfl
    have := (foldl_maxf_le_iff (fun v : ℚ => v) t x (listMaxD (x :: t))).mp key
    rcases List.mem_cons.mp ha with h | h
    · exact h ▸ this.1
    · exact this.2 a h

theorem listMinD_le {xs : List ℚ} {a : ℚ} (ha : a ∈ xs) : listMinD xs ≤ a := by
  cases xs with
  | nil => cases ha
  | cons x t =>
    have key : listMinD (x :: t) ≤ t.foldl (fun m v => min m v) x := le_rfl
    have hgen : ∀ (l : List ℚ) (b c : ℚ), c ≤ l.foldl (fun m v => min m v) b →
        c ≤ b ∧ ∀ y ∈ l, c ≤ y := by
      intro l
      induction l with
      | nil => intro b c h; simpa using h
      | cons y s ih =>
        intro b c h
        simp only [List.foldl_cons] at h
        rcases ih (min b y) c h with ⟨h1, h2⟩
        rcases le_min_iff.mp h1 with ⟨hb, hy⟩
        exact ⟨hb, fun z hz => (List.mem_cons.mp hz).elim (fun e => e ▸ hy) (h2 z)⟩
    have := hgen t x (listMinD (x :: t)) key
    rcases List.mem_cons.mp ha with h | h
    · exact h ▸ this.1
    · exact this.2 a h

theorem foldl_max_mem : ∀ (t : List ℚ) (x : ℚ), t.foldl max x ∈ x :: t := by
  intro t
  induction t with
  | nil => intro x; simp
  | cons y s ih =>
    intro x
    have h := ih (max x y)
    simp only [List.foldl_cons]
    rcases List.mem_cons.mp h with h1 | h1
    · rcases max_choice x y with hm | hm
      · exact List.mem_cons.mpr (Or.inl (h1.trans hm))
      · exact List.mem_cons.mpr (Or.inr (List.mem_cons.mpr (Or.inl (h1.trans hm))))
    · exact List.mem_cons.mpr (Or.inr (List.mem_cons.mpr (Or.inr h1)))

theorem foldl_min_mem : ∀ (t : List ℚ) (x : ℚ), t.foldl min x ∈ x :: t := by
  intro t
  induction t with
  | nil => intro x; simp
  | cons y s ih =>
    intro x
    have h := ih (min x y)
    simp only [List.foldl_cons]
    rcases List.mem_cons.mp h with h1 | h1
    · rcases min_choice x y with hm | hm
      · exact List.mem_cons.mpr (Or.inl (h1.trans hm))
      · exact List.mem_cons.mpr (Or.inr (List.mem_cons.mpr (Or.inl (h1.trans hm))))
    · exact List.mem_cons.mpr (Or.inr (List.mem_cons.mpr (Or.inr h1)))

theorem listMaxD_mem {xs : List ℚ} (h : xs ≠ []) : listMaxD xs ∈ xs := by
  cases xs with
  | nil => exact absurd rfl h
  | cons x t => exact foldl_max_mem t x

theorem listMinD_mem {xs : List ℚ} (h : xs ≠ []) : listMinD xs ∈ xs := by
  cases xs with
  | nil => exact absurd rfl h
  | cons x t => exact foldl_min_mem t x

/-- Specification-side maximum absolute magnitude of a vector. -/
def maxAbsSpec (xs : List ℚ) : ℚ :=
  xs.foldl (fun m x => max m |x|) 0

/-- Specification-side infinity norm of the componentwise change between a
current vector and a start vector. -/
def infNormDiffSpec (xs ys : List ℚ) : ℚ :=
  (xs.zip ys).foldl (fun m p => max m |p.1 - p.2|) 0

theorem maxAbsSpec_nonneg (xs : List ℚ) : 0 ≤ maxAbsSpec xs :=
  foldl_maxf_init_le _ xs 0

/-- Bridge between the source form max(fabs(min), fabs(max)) and the maximum
absolute magnitude, on nonempty vectors. -/
theorem minmax_abs_eq_maxAbsSpec {xs : List ℚ} (h : xs ≠ []) :
    max |listMinD xs| |listMaxD xs| = maxAbsSpec xs := by
  apply le_antisymm
  · exact max_le (mem_le_foldl_maxf (fun x => |x|) xs 0 (listMinD_mem h))
      (mem_le_foldl_maxf (fun x => |x|) xs 0 (listMaxD_mem h))
  · refine (foldl_maxf_le_iff _ xs 0 _).mpr ⟨?_, fun a ha => ?_⟩
    · exact le_trans (abs_nonneg _) (le_max_left _ _)
    · exact abs_le_max_abs_abs (listMinD_le ha) (le_listMaxD ha)

theorem fdiv_ne_none_iff (a b : ℚ) : fdiv a b ≠ none ↔ b ≠ 0 := by
  unfold fdiv
  split <;> simp_all

theorem fdiv_eq_some_zero_iff (a b : ℚ) :
    fdiv a b = some 0 ↔ b ≠ 0 ∧ a = 0 := by
  unfold fdiv
  split
  · simp_all
  · rename_i hb
    simp only [Option.some.injEq, div_eq_zero_iff]
    constructor
    · rintro (h | h)
      · exact ⟨hb, h⟩
      · exact absurd h hb
    · rintro ⟨_, h⟩
      exact Or.inl h

theorem zip_forall_eq :
    ∀ (xs ys : List ℚ), xs.length = ys.length →
      ((∀ p ∈ xs.zip ys, p.1 = p.2) ↔ xs = ys) := by
  intro xs
  induction xs with
  | nil =>
    intro ys h
    cases ys with
    | nil => simp
    | cons y t => simp at h
  | cons x s ih =>
    intro ys h
    cases ys with
    | nil => simp at h
    | cons y t =>
      simp only [List.length_cons, Nat.succ.injEq] at h
      simp only [List.zip_cons_cons, List.mem_cons, List.cons.injEq]
      constructor
      · intro hp
        refine ⟨hp (x, y) (Or.inl rfl), ?_⟩
        exact (ih t h).mp fun p hp2 => hp p (Or.inr hp2)
      · rintro ⟨h1, h2⟩
        intro p hp
        rcases hp with hp | hp
        · rw [hp]; exact h1
        · exact ((ih t h).mpr h2) p hp

theorem max_eq_zero_of_nonneg {a b : ℚ} (ha : 0 ≤ a) (hb : 0 ≤ b) :
    max a b = 0 ↔ a = 0 ∧ b = 0 := by
  constructor
  · intro h
    exact ⟨le_antisymm (h ▸ le_max_left a b) ha, le_antisymm (h ▸ le_max_right a b) hb⟩
  · rintro ⟨h1, h2⟩
    simp [h1, h2]

/-- Infinity norm of a change is zero exactly when the vectors agree, given
equal lengths. -/
theorem infNormDiffSpec_eq_zero_iff {xs ys : List ℚ} (h : xs.length = ys.length) :
    infNormDiffSpec xs ys = 0 ↔ xs = ys := by
  unfold infNormDiffSpec
  rw [foldl_maxf_eq_zero_iff _ (fun p => abs_nonneg _)]
  rw [← zip_forall_eq xs ys h]
  constructor
  · intro hp p hmem
    have := hp p hmem
    rw [abs_eq_zero, sub_eq_zero] at this
    exact this
  · intro hp p hmem
    rw [abs_eq_zero, sub_eq_zero]
    exact hp p hmem

/-- Normalization of the flux change as claim C4 words it: division by the
larger of the two iterations maximum absolute flux magnitude, jointly over
faces and well perforations. -/
def claimC4FluxRel (ff wpf sff spf : List ℚ) : Option ℚ :=
  fdiv (max (infNormDiffSpec ff sff) (infNormDiffSpec wpf spf))
    (max (max (maxAbsSpec ff) (maxAbsSpec wpf))
      (max (maxAbsSpec sff) (maxAbsSpec spf)))

theorem perf_minmax_eq (wpf : List ℚ) :
    (if wpf = [] then 0 else max |listMinD wpf| |listMaxD wpf|) = maxAbsSpec wpf := by
  split
  · rename_i h
    subst h
    rfl
  · rename_i h
    exact minmax_abs_eq_maxAbsSpec h

/-- Claim C4 is false as stated on the flux normalization: the source divides
by the maximum absolute flux magnitude of the current iteration only, not by
the larger of the two iterations.  With one face, current flux 1 and start
flux 2 (no wells), the source yields |1-2|/1 = 1 while the claimed formula
yields |1-2|/max(1,2) = 1/2. -/
theorem claim_C4_counterexample :
    (computeFluxPressChanges [1] [] [1] [2] [] [1]).1 = some 1 ∧
    claimC4FluxRel [1] [] [2] [] = some (1 / 2) ∧
    (computeFluxPressChanges [1] [] [1] [2] [] [1]).1 ≠ claimC4FluxRel [1] [] [2] [] := by
  have a1 : (computeFluxPressChanges [1] [] [1] [2] [] [1]).1 = some 1 := by
    norm_num [computeFluxPressChanges, fdiv, listMinD, listMaxD, List.zip]
  have a2 : claimC4FluxRel [1] [] [2] [] = some (1 / 2) := by
    norm_num [claimC4FluxRel, fdiv, infNormDiffSpec, maxAbsSpec, listMinD, listMaxD,
      List.zip]
  refine ⟨a1, a2, ?_⟩
  rw [a1, a2]
  norm_num

/-- Amended claim C4: the relative flux change equals the infinity norm of
the flux change taken jointly over faces and well perforation fluxes divided
by the maximum absolute flux magnitude of the current iteration (over faces
and perforations jointly), and the relative pressure change equals the
infinity norm of the cell pressure change divided by the maximum absolute
cell pressure magnitude of the current iteration; a zero normalizer makes the
metric non-finite. -/
theorem claim_C4_amended (ff wpf cp sff spf scp : List ℚ)
    (hff : ff ≠ []) (hcp : cp ≠ []) :
    computeFluxPressChanges ff wpf cp sff spf scp =
      (fdiv (max (infNormDiffSpec ff sff) (infNormDiffSpec wpf spf))
        (max (maxAbsSpec ff) (maxAbsSpec wpf)),
       fdiv (infNormDiffSpec cp scp) (maxAbsSpec cp)) := by
  simp only [computeFluxPressChanges]
  rw [perf_minmax_eq, minmax_abs_eq_maxAbsSpec hff, minmax_abs_eq_maxAbsSpec hcp,
    foldl_maxf_append]
  rfl

/-- Witness for the amended claim C4 at a concrete input. -/
theorem claim_C4_amended_witness :
    computeFluxPressChanges [1] [] [1] [2] [] [1] =
      (fdiv (max (infNormDiffSpec [1] [2]) (infNormDiffSpec [] []))
        (max (maxAbsSpec [1]) (maxAbsSpec [])),
       fdiv (infNormDiffSpec [1] [1]) (maxAbsSpec [1])) :=
  claim_C4_amended [1] [] [1] [2] [] [1] (by decide) (by decide)

/-- Claim C9 is false in the all-zero edge case it includes: with every flux
and pressure of both iterations exactly zero the two states are identical,
yet the source divides 0 by 0 and the metrics are non-finite (NaN), not zero.
The convergence test then fails rather than reporting convergence. -/
theorem claim_C9_counterexample :
    computeFluxPressChanges [0] [] [0] [0] [] [0] = (none, none) ∧
    computeFluxPressChanges [0] [] [0] [0] [] [0] ≠ (some 0, some 0) := by
  have a1 : computeFluxPressChanges [0] [] [0] [0] [] [0] = (none, none) := by
    norm_num [computeFluxPressChanges, fdiv, listMinD, listMaxD, List.zip]
  refine ⟨a1, ?_⟩
  rw [a1]
  simp

/-- Amended claim C9: when the normalizing magnitudes are nonzero (the
metrics are finite), the two metrics are both zero exactly when the two
consecutive iterations have identical face fluxes, identical well perforation
fluxes and identical cell pressures; in the all-zero case the metrics are
non-finite rather than zero. -/
theorem claim_C9_amended (ff wpf cp sff spf scp : List ℚ)
    (hl1 : ff.length = sff.length) (hl2 : wpf.length = spf.length)
    (hl3 : cp.length = scp.length)
    (hd1 : (computeFluxPressChanges ff wpf cp sff spf scp).1 ≠ none)
    (hd2 : (computeFluxPressChanges ff wpf cp sff spf scp).2 ≠ none) :
    computeFluxPressChanges ff wpf cp sff spf scp = (some 0, some 0) ↔
      ff = sff ∧ wpf = spf ∧ cp = scp := by
  simp only [computeFluxPressChanges] at hd1 hd2 ⊢
  rw [fdiv_ne_none_iff] at hd1 hd2
  rw [Prod.ext_iff]
  simp only [fdiv_eq_some_zero_iff]
  rw [foldl_maxf_append]
  have hz1 : (0:ℚ) ≤ (ff.zip sff).foldl (fun m p => max m |p.1 - p.2|) 0 :=
    foldl_maxf_init_le _ _ 0
  have hz2 : (0:ℚ) ≤ (wpf.zip spf).foldl (fun m p => max m |p.1 - p.2|) 0 :=
    foldl_maxf_init_le _ _ 0
  rw [max_eq_zero_of_nonneg hz1 hz2]
  have e1 : ((ff.zip sff).foldl (fun m p => max m |p.1 - p.2|) 0 = 0) ↔ ff = sff :=
    infNormDiffSpec_eq_zero_iff hl1
  have e2 : ((wpf.zip spf).foldl (fun m p => max m |p.1 - p.2|) 0 = 0) ↔ wpf = spf :=
    infNormDiffSpec_eq_zero_iff hl2
  have e3 : ((cp.zip scp).foldl (fun m p => max m |p.1 - p.2|) 0 = 0) ↔ cp = scp :=
    infNormDiffSpec_eq_zero_iff hl3
  rw [e1, e2, e3]
  constructor
  · rintro ⟨⟨_, h1, h2⟩, _, h3⟩
    exact ⟨h1, h2, h3⟩
  · rintro ⟨h1, h2, h3⟩
    exact ⟨⟨hd1, h1, h2⟩, hd2, h3⟩

/-- Witness for the amended claim C9 at a concrete input: identical nonzero
states give metrics (0, 0). -/
theorem claim_C9_amended_witness :
    computeFluxPressChanges [1] [] [1] [1] [] [1] = (some 0, some 0) :=
  (claim_C9_amended [1] [] [1] [1] [] [1] rfl rfl rfl (by decide) (by decide)).mpr
    ⟨rfl, rfl, rfl⟩

theorem foldl_add_of_zeros {l : List ℚ} (h : ∀ x ∈ l, x = 0) :
    ∀ c : ℚ, l.foldl (fun s x => s + x) c = c := by
  induction l with
  | nil => intro c; rfl
  | cons x t ih =>
    intro c
    have hx : x = 0 := h x (List.mem_cons.mpr (Or.inl rfl))
    simp only [List.foldl_cons, hx, add_zero]
    exact ih (fun y hy => h y (List.mem_cons.mpr (Or.inr hy))) c

theorem dotQ_zero_right (a : List ℚ) {b : List ℚ} (hb : ∀ g ∈ b, g = 0) :
    dotQ a b = 0 := by
  unfold dotQ
  apply foldl_add_of_zeros
  intro x hx
  rcases List.mem_map.mp hx with ⟨p, hp, rfl⟩
  have := hb p.2 (List.of_mem_zip hp).2
  rw [this, mul_zero]

/-- Claim C8: every perforation pressure computed by
computeWellPerfPressures equals the bottomhole pressure of the owning well
plus the sum over phases of the flux-weighted average saturation of the well
times the gravity potential of that perforation; consequently, when every
gravity potential of the perforation is zero, the perforation pressure is
exactly the bottomhole pressure.  The hypothesis that the total perforation
flux of the well is nonzero keeps the averaging division finite (the zero
case is claim C10). -/
theorem claim_C8 (numPhases : ℕ) (perfs : List Perf) (bhp : List ℚ) (i : ℕ)
    (h : i < perfs.length)
    (hwf : wellTotalFlux perfs perfs[i].well ≠ 0) :
    (computeWellPerfPressures numPhases perfs bhp).getD i none =
      some (bhp.getD perfs[i].well 0 +
        dotQ (vecScale (1 / wellTotalFlux perfs perfs[i].well)
          (wellSatFluxSum numPhases perfs perfs[i].well))
          perfs[i].gpot) ∧
    ((∀ g ∈ perfs[i].gpot, g = 0) →
      (computeWellPerfPressures numPhases perfs bhp).getD i none =
        some (bhp.getD perfs[i].well 0)) := by
  have hlen : i < (computeWellPerfPressures numPhases perfs bhp).length := by
    simpa [computeWellPerfPressures] using h
  have hsat : wellAvgSat numPhases perfs perfs[i].well =
      some (vecScale (1 / wellTotalFlux perfs perfs[i].well)
        (wellSatFluxSum numPhases perfs perfs[i].well)) := by
    unfold wellAvgSat
    rw [if_neg hwf]
  have hmain : (computeWellPerfPressures numPhases perfs bhp).getD i none =
      some (bhp.getD perfs[i].well 0 +
        dotQ (vecScale (1 / wellTotalFlux perfs perfs[i].well)
          (wellSatFluxSum numPhases perfs perfs[i].well))
          perfs[i].gpot) := by
    rw [List.getD_eq_getElem _ _ hlen]
    simp only [computeWellPerfPressures, List.getElem_map, hsat]
  refine ⟨hmain, fun hgz => ?_⟩
  rw [hmain, dotQ_zero_right _ hgz, add_zero]

/-- Witness for claim C8: a single injector well with one perforation, flux 3,
saturation (1, 0) and zero gravity potentials; the perforation pressure is
exactly the bottomhole pressure 50. -/
theorem claim_C8_witness :
    (computeWellPerfPressures 2 [⟨0, 3, [1, 0], [0, 0]⟩] [50]).getD 0 none =
      some 50 :=
  (claim_C8 2 [⟨0, 3, [1, 0], [0, 0]⟩] [50] 0 (by decide)
    (by norm_num [wellTotalFlux, List.filter])).2 (by simp)

/-- Claim C10: computeWellPerfPressures divides by the total perforation flux
of each well with no guard; for a well whose perforation fluxes sum to zero
(for example, all fluxes zero) the averaged saturations, and hence the
perforation pressures, are non-finite. -/
theorem claim_C10 (numPhases : ℕ) (perfs : List Perf) (bhp : List ℚ) (i : ℕ)
    (h : i < perfs.length)
    (hwf : wellTotalFlux perfs perfs[i].well = 0) :
    wellAvgSat numPhases perfs perfs[i].well = none ∧
    (computeWellPerfPressures numPhases perfs bhp).getD i (some 0) = none := by
  have hsat : wellAvgSat numPhases perfs perfs[i].well = none := by
    unfold wellAvgSat
    rw [if_pos hwf]
  have hlen : i < (computeWellPerfPressures numPhases perfs bhp).length := by
    simpa [computeWellPerfPressures] using h
  refine ⟨hsat, ?_⟩
  rw [List.getD_eq_getElem _ _ hlen]
  simp only [computeWellPerfPressures, List.getElem_map, hsat]

/-- Witness for claim C10: one perforation with flux 0 makes the perforation
pressure non-finite. -/
theorem claim_C10_witness :
    wellAvgSat 1 [⟨0, 0, [1], [2]⟩] 0 = none ∧
    (computeWellPerfPressures 1 [⟨0, 0, [1], [2]⟩] [50]).getD 0 (some 0) = none := by
  have := claim_C10 1 [⟨0, 0, [1], [2]⟩] [50] 0 (by decide)
    (by norm_num [wellTotalFlux, List.filter])
  exact this

/-- Claim C3 fails on the code: in computeFluidProps the injector branch reads
perf_pressure_[perf] with the well-local loop index, while perf_pressure_ is
indexed by the global perforation counter.  Failing input: two injector wells
with one perforation each (cells 0 and 1) and global perforation pressures
(10, 20); a recording fluid evaluator that stores the pressure argument into
the saturation shows that the second perforation (global index 1) is
evaluated at pressure 10 — the pressure assigned to the perforation of the
FIRST well — instead of its own assigned pressure 20. -/
theorem claim_C3_bug :
    computePerfProps 1 (fun p m => ⟨p, m, []⟩) (fun _ => [7])
      [⟨true, [0]⟩, ⟨true, [1]⟩] [[100], [200]] [[5], [6]] [10, 20] =
      [⟨[10], [7], []⟩, ⟨[10], [7], []⟩] ∧
    ([10] : List ℚ) ≠ [20] := by
  refine ⟨by decide, by decide⟩

/-! ### Structural lemmas on the iteration loop -/

theorem optLt_fdiv_false {a b t : ℚ} (ha : 0 ≤ a) (hb : 0 ≤ b) (ht : t ≤ 0) :
    optLt (fdiv a b) t = false := by
  unfold fdiv
  split
  · rfl
  · simp only [optLt, decide_eq_false_iff_not, not_lt]
    exact le_trans ht (div_nonneg ha hb)

theorem optLt_metric_fst_false (ff wpf cp sff spf scp : List ℚ) {t : ℚ}
    (ht : t ≤ 0) :
    optLt (computeFluxPressChanges ff wpf cp sff spf scp).1 t = false := by
  simp only [computeFluxPressChanges]
  exact optLt_fdiv_false (foldl_maxf_init_le _ _ 0)
    (le_trans (abs_nonneg _) (le_trans (le_max_left _ _) (le_max_left _ _))) ht

theorem optLt_metric_snd_false (ff wpf cp sff spf scp : List ℚ) {t : ℚ}
    (ht : t ≤ 0) :
    optLt (computeFluxPressChanges ff wpf cp sff spf scp).2 t = false := by
  simp only [computeFluxPressChanges]
  exact optLt_fdiv_false (foldl_maxf_init_le _ _ 0)
    (le_trans (abs_nonneg _) (le_max_left _ _)) ht

theorem iterStep_volDisc_elim {cfg : Config} {su : Setup} {orc : Oracles}
    {dt : ℚ} {cz : List (List ℚ)} {p0 : List ℚ} {iter : ℕ} {iv0 : List ℚ}
    {gpot0 : List (List ℚ)} {st : SolveState}
    (h : iterStep cfg su orc dt cz p0 iter iv0 gpot0 st = StepRes.volDisc) :
    iter = 0 ∧
      cfg.max_relative_voldiscr < listMaxD (orc.fluidProps st cz dt).relvoldiscr := by
  simp only [iterStep] at h
  split at h
  · rename_i hC
    exact hC
  · split at h
    · split at h <;> cases h
    · cases h

theorem iterStep_eq_volDisc_of {cfg : Config} {su : Setup} {orc : Oracles}
    {dt : ℚ} {cz : List (List ℚ)} {p0 : List ℚ} {iv0 : List ℚ}
    {gpot0 : List (List ℚ)} {st : SolveState}
    (hlt : cfg.max_relative_voldiscr < listMaxD (orc.fluidProps st cz dt).relvoldiscr) :
    iterStep cfg su orc dt cz p0 0 iv0 gpot0 st = StepRes.volDisc := by
  simp [iterStep, hlt]

theorem iterStep_eq_linFail_of {cfg : Config} {su : Setup} {orc : Oracles}
    {dt : ℚ} {cz : List (List ℚ)} {p0 : List ℚ} {iter : ℕ} {iv0 : List ℚ}
    {gpot0 : List (List ℚ)} {st : SolveState}
    (hng : ¬(iter = 0 ∧
      cfg.max_relative_voldiscr < listMaxD (orc.fluidProps st cz dt).relvoldiscr))
    (hcv : (orc.linearize cfg.experimental_jacobian iter p0
        (ivAt cfg dt (orc.fluidProps st cz dt) iter iv0)
        (gpotAt orc (orc.fluidProps st cz dt) iter gpot0)
        (orc.fluidProps st cz dt) st).converged = false) :
    iterStep cfg su orc dt cz p0 iter iv0 gpot0 st = StepRes.linFail := by
  simp only [iterStep]
  rw [if_neg hng]
  simp only [hcv, Bool.false_eq_true, if_false]

theorem iterStep_ne_linFail {cfg : Config} {su : Setup} {orc : Oracles}
    {dt : ℚ} {cz : List (List ℚ)} {p0 : List ℚ} {iter : ℕ} {iv0 : List ℚ}
    {gpot0 : List (List ℚ)} {st : SolveState}
    (hcv : ∀ e it pp iv gp f s, (orc.linearize e it pp iv gp f s).converged = true) :
    iterStep cfg su orc dt cz p0 iter iv0 gpot0 st ≠ StepRes.linFail := by
  simp only [iterStep]
  split
  · simp
  · simp only [hcv, if_true]
    split <;> simp

theorem solveLoop_counts_le (cfg : Config) (su : Setup) (orc : Oracles) (dt : ℚ)
    (cz : List (List ℚ)) (p0 : List ℚ) :
    ∀ (r iter : ℕ) (iv : List ℚ) (gpot : List (List ℚ)) (st : SolveState),
      (solveLoop cfg su orc dt cz p0 iter r iv gpot st).itersOf ≤ r ∧
      (solveLoop cfg su orc dt cz p0 iter r iv gpot st).solvesOf ≤ r := by
  intro r
  induction r with
  | zero =>
    intro iter iv gpot st
    simp [solveLoop, SolveResult.itersOf, SolveResult.solvesOf]
  | succ n ih =>
    intro iter iv gpot st
    cases hs : iterStep cfg su orc dt cz p0 iter iv gpot st with
    | volDisc =>
      simp only [solveLoop, hs]
      simp [SolveResult.itersOf, SolveResult.solvesOf]
    | linFail =>
      simp only [solveLoop, hs]
      simp [SolveResult.itersOf, SolveResult.solvesOf]
    | done st2 =>
      simp only [solveLoop, hs]
      simp [SolveResult.itersOf, SolveResult.solvesOf]
    | next st2 iv2 gpot2 =>
      have hr := ih (iter + 1) iv2 gpot2 st2
      cases hrec : solveLoop cfg su orc dt cz p0 (iter + 1) n iv2 gpot2 st2 with
      | ok c i s =>
        rw [hrec] at hr
        simp only [solveLoop, hs, hrec]
        simp only [SolveResult.itersOf, SolveResult.solvesOf] at hr ⊢
        omega
      | fatal i s =>
        rw [hrec] at hr
        simp only [solveLoop, hs, hrec]
        simp only [SolveResult.itersOf, SolveResult.solvesOf] at hr ⊢
        omega

theorem solveLoop_ok_of_no_linFail (cfg : Config) (su : Setup) (orc : Oracles)
    (dt : ℚ) (cz : List (List ℚ)) (p0 : List ℚ)
    (H : ∀ iter iv gpot st,
      iterStep cfg su orc dt cz p0 iter iv gpot st ≠ StepRes.linFail) :
    ∀ (r iter : ℕ) (iv : List ℚ) (gpot : List (List ℚ)) (st : SolveState),
      ∃ c i s, solveLoop cfg su orc dt cz p0 iter r iv gpot st =
        SolveResult.ok c i s := by
  intro r
  induction r with
  | zero =>
    intro iter iv gpot st
    exact ⟨ReturnCode.FailedToConverge, 0, 0, rfl⟩
  | succ n ih =>
    intro iter iv gpot st
    cases hs : iterStep cfg su orc dt cz p0 iter iv gpot st with
    | volDisc =>
      refine ⟨ReturnCode.VolumeDiscrepancyTooLarge, 1, 0, ?_⟩
      simp only [solveLoop, hs]
    | linFail => exact absurd hs (H iter iv gpot st)
    | done st2 =>
      refine ⟨ReturnCode.SolveOk, 1, 1, ?_⟩
      simp only [solveLoop, hs]
    | next st2 iv2 gpot2 =>
      obtain ⟨c, i, s, hrec⟩ := ih (iter + 1) iv2 gpot2 st2
      refine ⟨c, i + 1, s + 1, ?_⟩
      simp only [solveLoop, hs, hrec]

theorem solveLoop_failed_of_all_next (cfg : Config) (su : Setup) (orc : Oracles)
    (dt : ℚ) (cz : List (List ℚ)) (p0 : List ℚ)
    (H : ∀ iter iv gpot st,
      (iterStep cfg su orc dt cz p0 iter iv gpot st).isNext = true) :
    ∀ (r iter : ℕ) (iv : List ℚ) (gpot : List (List ℚ)) (st : SolveState),
      solveLoop cfg su orc dt cz p0 iter r iv gpot st =
        SolveResult.ok ReturnCode.FailedToConverge r r := by
  intro r
  induction r with
  | zero => intro iter iv gpot st; rfl
  | succ n ih =>
    intro iter iv gpot st
    have hn := H iter iv gpot st
    cases hs : iterStep cfg su orc dt cz p0 iter iv gpot st with
    | volDisc => rw [hs] at hn; simp [StepRes.isNext] at hn
    | linFail => rw [hs] at hn; simp [StepRes.isNext] at hn
    | done st2 => rw [hs] at hn; simp [StepRes.isNext] at hn
    | next st2 iv2 gpot2 =>
      simp only [solveLoop, hs, ih (iter + 1) iv2 gpot2 st2]

theorem solveLoop_volDisc_shape (cfg : Config) (su : Setup) (orc : Oracles)
    (dt : ℚ) (cz : List (List ℚ)) (p0 : List ℚ) :
    ∀ (r iter : ℕ) (iv : List ℚ) (gpot : List (List ℚ)) (st : SolveState)
      (i s : ℕ),
      solveLoop cfg su orc dt cz p0 iter r iv gpot st =
        SolveResult.ok ReturnCode.VolumeDiscrepancyTooLarge i s →
      iter = 0 ∧ i = 1 ∧ s = 0 := by
  intro r
  induction r with
  | zero =>
    intro iter iv gpot st i s h
    simp only [solveLoop] at h
    cases h
  | succ n ih =>
    intro iter iv gpot st i s h
    cases hs : iterStep cfg su orc dt cz p0 iter iv gpot st with
    | volDisc =>
      simp only [solveLoop, hs, SolveResult.ok.injEq] at h
      exact ⟨(iterStep_volDisc_elim hs).1, h.2.1.symm, h.2.2.symm⟩
    | linFail =>
      simp only [solveLoop, hs] at h
      cases h
    | done st2 =>
      simp only [solveLoop, hs, SolveResult.ok.injEq] at h
      cases h.1
    | next st2 iv2 gpot2 =>
      simp only [solveLoop, hs] at h
      cases hrec : solveLoop cfg su orc dt cz p0 (iter + 1) n iv2 gpot2 st2 with
      | ok c i0 s0 =>
        rw [hrec] at h
        simp only [SolveResult.ok.injEq] at h
        obtain ⟨hc, _, _⟩ := h
        have := ih (iter + 1) iv2 gpot2 st2 i0 s0 (hc ▸ hrec)
        omega
      | fatal i0 s0 =>
        rw [hrec] at h
        cases h

/-- Claim C1: solve performs at most max_num_iter iterations; whenever every
external linear solve converges it returns one of the three outcome codes
(never looping unboundedly); and when, in addition, no iteration rejects,
fails or converges, it returns FailedToConverge after exactly max_num_iter
iterations. -/
theorem claim_C1 :
    (∀ (cfg : Config) (su : Setup) (orc : Oracles) (li : ℕ)
      (cp fp cz : List (List ℚ)) (wpp wpf : List ℚ) (dt : ℚ),
      (solve cfg su orc li cp fp cz wpp wpf dt).itersOf ≤ cfg.max_num_iter) ∧
    (∀ (cfg : Config) (su : Setup) (orc : Oracles) (li : ℕ)
      (cp fp cz : List (List ℚ)) (wpp wpf : List ℚ) (dt : ℚ),
      (∀ e it pp iv gp f s, (orc.linearize e it pp iv gp f s).converged = true) →
      ∃ c i s, solve cfg su orc li cp fp cz wpp wpf dt = SolveResult.ok c i s ∧
        (c = ReturnCode.SolveOk ∨ c = ReturnCode.VolumeDiscrepancyTooLarge ∨
          c = ReturnCode.FailedToConverge)) ∧
    (∀ (cfg : Config) (su : Setup) (orc : Oracles) (li : ℕ)
      (cp fp cz : List (List ℚ)) (wpp wpf : List ℚ) (dt : ℚ),
      (∀ iter iv gpot st,
        (iterStep cfg su orc dt cz (cp.map fun pv => pv.getD li 0)
          iter iv gpot st).isNext = true) →
      solve cfg su orc li cp fp cz wpp wpf dt =
        SolveResult.ok ReturnCode.FailedToConverge cfg.max_num_iter
          cfg.max_num_iter) := by
  refine ⟨?_, ?_, ?_⟩
  · intro cfg su orc li cp fp cz wpp wpf dt
    simp only [solve]
    exact (solveLoop_counts_le cfg su orc dt cz _ cfg.max_num_iter 0 [] [] _).1
  · intro cfg su orc li cp fp cz wpp wpf dt hcv
    have H : ∀ iter iv gpot st,
        iterStep cfg su orc dt cz (cp.map fun pv => pv.getD li 0) iter iv gpot st ≠
          StepRes.linFail :=
      fun iter iv gpot st => iterStep_ne_linFail hcv
    simp only [solve]
    obtain ⟨c, i, s, h⟩ := solveLoop_ok_of_no_linFail cfg su orc dt cz _ H
      cfg.max_num_iter 0 [] [] _
    refine ⟨c, i, s, h, ?_⟩
    cases c
    · exact Or.inl rfl
    · exact Or.inr (Or.inl rfl)
    · exact Or.inr (Or.inr rfl)
  · intro cfg su orc li cp fp cz wpp wpf dt H
    simp only [solve]
    exact solveLoop_failed_of_all_next cfg su orc dt cz _ H cfg.max_num_iter 0 [] [] _

/-- Claim C2: when the maximum relative volume discrepancy of the first fluid
evaluation strictly exceeds the configured ceiling, solve returns
VolumeDiscrepancyTooLarge during iteration 0 having performed no linear
solve (nothing assembled or solved); and a VolumeDiscrepancyTooLarge result
can only arise that way: it always reports one entered iteration and zero
linear solves. -/
theorem claim_C2 :
    (∀ (cfg : Config) (su : Setup) (orc : Oracles) (li : ℕ)
      (cp fp cz : List (List ℚ)) (wpp wpf : List ℚ) (dt : ℚ),
      0 < cfg.max_num_iter →
      cfg.max_relative_voldiscr < listMaxD
        ((orc.fluidProps (solveInitState su li cp fp wpp wpf) cz dt).relvoldiscr) →
      solve cfg su orc li cp fp cz wpp wpf dt =
        SolveResult.ok ReturnCode.VolumeDiscrepancyTooLarge 1 0) ∧
    (∀ (cfg : Config) (su : Setup) (orc : Oracles) (li : ℕ)
      (cp fp cz : List (List ℚ)) (wpp wpf : List ℚ) (dt : ℚ) (i s : ℕ),
      solve cfg su orc li cp fp cz wpp wpf dt =
        SolveResult.ok ReturnCode.VolumeDiscrepancyTooLarge i s →
      i = 1 ∧ s = 0) := by
  constructor
  · intro cfg su orc li cp fp cz wpp wpf dt hpos hlt
    obtain ⟨n, hn⟩ : ∃ n, cfg.max_num_iter = n + 1 :=
      ⟨cfg.max_num_iter - 1, by omega⟩
    simp only [solve, hn]
    simp only [solveLoop, iterStep_eq_volDisc_of hlt]
  · intro cfg su orc li cp fp cz wpp wpf dt i s h
    simp only [solve] at h
    have := solveLoop_volDisc_shape cfg su orc dt cz _ cfg.max_num_iter 0 [] [] _ i s h
    exact ⟨this.2.1, this.2.2⟩

theorem solveLoop_fatal_at (cfg : Config) (su : Setup) (orc : Oracles) (dt : ℚ)
    (cz : List (List ℚ)) (p0 : List ℚ) (k : ℕ)
    (Hnext : ∀ iter iv gpot st, iter < k →
      (iterStep cfg su orc dt cz p0 iter iv gpot st).isNext = true)
    (Hfail : ∀ iv gpot st,
      iterStep cfg su orc dt cz p0 k iv gpot st = StepRes.linFail) :
    ∀ (r j : ℕ) (iv : List ℚ) (gpot : List (List ℚ)) (st : SolveState),
      j ≤ k → k < j + r →
      solveLoop cfg su orc dt cz p0 j r iv gpot st =
        SolveResult.fatal (k - j + 1) (k - j + 1) := by
  intro r
  induction r with
  | zero => intro j iv gpot st hj hk; omega
  | succ n ih =>
    intro j iv gpot st hj hk
    by_cases hjk : j = k
    · subst hjk
      simp only [solveLoop, Hfail iv gpot st]
      congr 1 <;> omega
    · have hlt : j < k := lt_of_le_of_ne hj hjk
      have hn := Hnext j iv gpot st hlt
      cases hs : iterStep cfg su orc dt cz p0 j iv gpot st with
      | volDisc => rw [hs] at hn; simp [StepRes.isNext] at hn
      | linFail => rw [hs] at hn; simp [StepRes.isNext] at hn
      | done st2 => rw [hs] at hn; simp [StepRes.isNext] at hn
      | next st2 iv2 gpot2 =>
        have hrec := ih (j + 1) iv2 gpot2 st2 (by omega) (by omega)
        simp only [solveLoop, hs, hrec]
        congr 1 <;> omega

/-- Claim C5: whenever the external linear solver reports non-convergence at
some iteration k — on either linearization path, since the configuration,
including the experimental_jacobian flag, is arbitrary — solve propagates a
fatal failure: it returns the fatal outcome after exactly k+1 linear solves
(no retry) and does not return any of the three outcome codes. -/
theorem claim_C5 :
    ∀ (cfg : Config) (su : Setup) (orc : Oracles) (li : ℕ)
      (cp fp cz : List (List ℚ)) (wpp wpf : List ℚ) (dt : ℚ) (k : ℕ),
      k < cfg.max_num_iter →
      (∀ iter iv gpot st, iter < k →
        (iterStep cfg su orc dt cz (cp.map fun pv => pv.getD li 0)
          iter iv gpot st).isNext = true) →
      (∀ iv gp f s, (orc.linearize cfg.experimental_jacobian k
        (cp.map fun pv => pv.getD li 0) iv gp f s).converged = false) →
      (k = 0 → ∀ st, ¬ cfg.max_relative_voldiscr <
        listMaxD ((orc.fluidProps st cz dt).relvoldiscr)) →
      solve cfg su orc li cp fp cz wpp wpf dt = SolveResult.fatal (k + 1) (k + 1) ∧
      ∀ c i s, solve cfg su orc li cp fp cz wpp wpf dt ≠ SolveResult.ok c i s := by
  intro cfg su orc li cp fp cz wpp wpf dt k hk Hnext Hlin Hvol
  have Hfail : ∀ iv gpot st,
      iterStep cfg su orc dt cz (cp.map fun pv => pv.getD li 0) k iv gpot st =
        StepRes.linFail := by
    intro iv gpot st
    apply iterStep_eq_linFail_of
    · rintro ⟨hk0, hl⟩
      exact Hvol hk0 st hl
    · exact Hlin _ _ _ _
  have hmain : solve cfg su orc li cp fp cz wpp wpf dt =
      SolveResult.fatal (k + 1) (k + 1) := by
    simp only [solve]
    have := solveLoop_fatal_at cfg su orc dt cz _ k Hnext Hfail
      cfg.max_num_iter 0 [] []
      (solveInitState su li cp fp wpp wpf) (Nat.zero_le k) (by omega)
    simpa using this
  refine ⟨hmain, fun c i s h => ?_⟩
  rw [hmain] at h
  cases h

theorem blend_getD (w : ℚ) (xs ys : List ℚ) (i : ℕ) (h1 : i < xs.length)
    (h2 : i < ys.length) :
    (blend w xs ys).getD i 0 = w * xs.getD i 0 + (1 - w) * ys.getD i 0 := by
  have hz : i < (xs.zip ys).length := by
    rw [List.length_zip]
    omega
  have hb : i < (blend w xs ys).length := by
    simpa [blend] using hz
  rw [List.getD_eq_getElem _ _ hb, List.getD_eq_getElem _ _ h1,
    List.getD_eq_getElem _ _ h2]
  simp only [blend, List.getElem_map, List.getElem_zip]

/-- Claim C6: with a configured relaxation weight w different from 1, the
relaxation step of the loop body (applied by iterStep on every iteration)
blends each cell pressure as w * fresh + (1 - w) * previous on every
iteration, while face pressures and face fluxes keep the freshly computed
values on iteration 0 and are blended by the same formula on iterations
after the first. -/
theorem claim_C6 (w : ℚ) (iter : ℕ) (lin : LinearizeResult) (st : SolveState)
    (hw : w ≠ 1) :
    (∀ i, i < lin.cell_pressure.length → i < st.cell_pressure_scalar.length →
      (relaxVals w iter lin st).1.getD i 0 =
        w * lin.cell_pressure.getD i 0 +
          (1 - w) * st.cell_pressure_scalar.getD i 0) ∧
    (iter = 0 → (relaxVals w iter lin st).2.1 = lin.face_pressure ∧
      (relaxVals w iter lin st).2.2 = lin.face_flux) ∧
    (0 < iter →
      (∀ i, i < lin.face_pressure.length → i < st.face_pressure_scalar.length →
        (relaxVals w iter lin st).2.1.getD i 0 =
          w * lin.face_pressure.getD i 0 +
            (1 - w) * st.face_pressure_scalar.getD i 0) ∧
      (∀ i, i < lin.face_flux.length → i < st.face_flux.length →
        (relaxVals w iter lin st).2.2.getD i 0 =
          w * lin.face_flux.getD i 0 + (1 - w) * st.face_flux.getD i 0)) := by
  unfold relaxVals
  rw [if_pos hw]
  by_cases hiter : 0 < iter
  · rw [if_pos hiter]
    refine ⟨fun i h1 h2 => blend_getD w _ _ i h1 h2, fun h0 => absurd h0 (by omega),
      fun _ => ⟨fun i h1 h2 => blend_getD w _ _ i h1 h2,
        fun i h1 h2 => blend_getD w _ _ i h1 h2⟩⟩
  · rw [if_neg hiter]
    exact ⟨fun i h1 h2 => blend_getD w _ _ i h1 h2, fun _ => ⟨rfl, rfl⟩,
      fun h0 => absurd h0 hiter⟩

theorem relaxVals_one (iter : ℕ) (lin : LinearizeResult) (st : SolveState) :
    relaxVals 1 iter lin st =
      (lin.cell_pressure, lin.face_pressure, lin.face_flux) := by
  simp [relaxVals]

theorem iterStep_eq_noRelax_of_weight_one {cfg : Config} (su : Setup)
    (orc : Oracles) (dt : ℚ) (cz : List (List ℚ)) (p0 : List ℚ)
    (hw : cfg.relax_weight_pressure_iteration = 1) :
    ∀ (iter : ℕ) (iv : List ℚ) (gpot : List (List ℚ)) (st : SolveState),
      iterStep cfg su orc dt cz p0 iter iv gpot st =
        iterStepNoRelax cfg su orc dt cz p0 iter iv gpot st := by
  intro iter iv gpot st
  simp only [iterStep, iterStepNoRelax, hw, relaxVals_one]

theorem solveLoop_eq_noRelax_of_weight_one {cfg : Config} (su : Setup)
    (orc : Oracles) (dt : ℚ) (cz : List (List ℚ)) (p0 : List ℚ)
    (hw : cfg.relax_weight_pressure_iteration = 1) :
    ∀ (r iter : ℕ) (iv : List ℚ) (gpot : List (List ℚ)) (st : SolveState),
      solveLoop cfg su orc dt cz p0 iter r iv gpot st =
        solveLoopNoRelax cfg su orc dt cz p0 iter r iv gpot st := by
  intro r
  induction r with
  | zero => intro iter iv gpot st; rfl
  | succ n ih =>
    intro iter iv gpot st
    simp only [solveLoop, solveLoopNoRelax,
      iterStep_eq_noRelax_of_weight_one su orc dt cz p0 hw, ih]

/-- Claim C7: with relaxation weight configured exactly 1, every loop body
produces the same step outcome (hence the same intermediate pressures and
fluxes) as the variant with the relaxation block removed, and solve returns
the identical result. -/
theorem claim_C7 :
    ∀ (cfg : Config) (su : Setup) (orc : Oracles) (li : ℕ)
      (cp fp cz : List (List ℚ)) (wpp wpf : List ℚ) (dt : ℚ),
      cfg.relax_weight_pressure_iteration = 1 →
      (∀ (p0 : List ℚ) (iter : ℕ) (iv : List ℚ) (gpot : List (List ℚ))
        (st : SolveState),
        iterStep cfg su orc dt cz p0 iter iv gpot st =
          iterStepNoRelax cfg su orc dt cz p0 iter iv gpot st) ∧
      solve cfg su orc li cp fp cz wpp wpf dt =
        solveNoRelax cfg su orc li cp fp cz wpp wpf dt := by
  intro cfg su orc li cp fp cz wpp wpf dt hw
  constructor
  · intro p0 iter iv gpot st
    exact iterStep_eq_noRelax_of_weight_one su orc dt cz p0 hw iter iv gpot st
  · simp only [solve, solveNoRelax]
    exact solveLoop_eq_noRelax_of_weight_one su orc dt cz _ hw
      cfg.max_num_iter 0 [] [] _

/-! ### Concrete fixtures for the witnesses -/

/-- Configuration with zero tolerances, iteration budget 2, zero
volume-discrepancy ceiling, no voldiscr relaxation, weight 1, standard path. -/
def cfgTwoIter : Config := ⟨0, 0, 2, 0, 0, 1, false⟩

/-- Configuration like cfgTwoIter but with iteration budget 3. -/
def cfgThreeIter : Config := ⟨0, 0, 3, 0, 0, 1, false⟩

/-- Setup with one phase, no wells, one face. -/
def suW : Setup := ⟨1, 0, 1, []⟩

/-- Oracles whose first fluid evaluation reports relative volume discrepancy
1, above the zero ceiling of the fixture configurations. -/
def orcReject : Oracles :=
  ⟨fun _ _ _ => ⟨[1], [1], []⟩, fun _ => [],
    fun _ _ _ _ _ _ _ => ⟨true, [1], [1], [1], [], []⟩⟩

/-- Oracles whose linear solver always reports non-convergence. -/
def orcLinFail : Oracles :=
  ⟨fun _ _ _ => ⟨[0], [0], []⟩, fun _ => [],
    fun _ _ _ _ _ _ _ => ⟨false, [1], [1], [1], [], []⟩⟩

/-- Oracles that always pass the volume-discrepancy check and always produce
a converged linear solve with fixed nonzero output. -/
def orcAlwaysNext : Oracles :=
  ⟨fun _ _ _ => ⟨[0], [0], []⟩, fun _ => [],
    fun _ _ _ _ _ _ _ => ⟨true, [1], [1], [1], [], []⟩⟩

/-- Witness for claim C1: with zero tolerances nothing ever converges, so the
budget of 2 iterations is exhausted and FailedToConverge is returned after
exactly 2 iterations and 2 linear solves. -/
theorem claim_C1_witness :
    solve cfgTwoIter suW orcAlwaysNext 0 [[1]] [[0]] [[1]] [] [] 1 =
      SolveResult.ok ReturnCode.FailedToConverge 2 2 := by
  apply claim_C1.2.2
  intro iter iv gpot st
  have hm1 : ∀ a b c d e f : List ℚ,
      optLt (computeFluxPressChanges a b c d e f).1 (0:ℚ) = false :=
    fun a b c d e f => optLt_metric_fst_false a b c d e f le_rfl
  have hm2 : ∀ a b c d e f : List ℚ,
      optLt (computeFluxPressChanges a b c d e f).2 (0:ℚ) = false :=
    fun a b c d e f => optLt_metric_snd_false a b c d e f le_rfl
  simp only [iterStep, cfgTwoIter, orcAlwaysNext, suW, relaxVals_one, listMaxD,
    List.foldl_nil, lt_self_iff_false, and_false, if_false, if_true, hm1, hm2,
    Bool.or_self, Bool.false_eq_true, StepRes.isNext]

/-- Witness for claim C2: a first fluid evaluation with relative volume
discrepancy 1 above the ceiling 0 makes solve reject with one entered
iteration and zero linear solves. -/
theorem claim_C2_witness :
    solve cfgThreeIter suW orcReject 0 [[1]] [[0]] [[1]] [] [] 1 =
      SolveResult.ok ReturnCode.VolumeDiscrepancyTooLarge 1 0 :=
  claim_C2.1 cfgThreeIter suW orcReject 0 [[1]] [[0]] [[1]] [] [] 1
    (by norm_num [cfgThreeIter])
    (by norm_num [cfgThreeIter, orcReject, listMaxD])

/-- Witness for claim C5: a linear solver reporting non-convergence on
iteration 0 produces the fatal outcome after exactly one linear solve. -/
theorem claim_C5_witness :
    solve cfgThreeIter suW orcLinFail 0 [[1]] [[0]] [[1]] [] [] 1 =
      SolveResult.fatal 1 1 :=
  (claim_C5 cfgThreeIter suW orcLinFail 0 [[1]] [[0]] [[1]] [] [] 1 0
    (by norm_num [cfgThreeIter])
    (fun iter iv gpot st hlt => absurd hlt (Nat.not_lt_zero iter))
    (fun iv gp f s => rfl)
    (fun _ st => by simp [cfgThreeIter, orcLinFail, listMaxD])).1

/-- Linearization output used by the claim C6 witness. -/
def linW : LinearizeResult := ⟨true, [2], [4], [6], [], []⟩

/-- Prior iteration state used by the claim C6 witness. -/
def stW : SolveState := ⟨[[4]], [[8]], [4], [8], [10], [], [], []⟩

/-- Witness for claim C6 at weight 1/2 on iteration 1. -/
theorem claim_C6_witness :
    (relaxVals (1/2) 1 linW stW).1.getD 0 0 =
      (1/2) * linW.cell_pressure.getD 0 0 +
        (1 - 1/2) * stW.cell_pressure_scalar.getD 0 0 :=
  (claim_C6 (1/2) 1 linW stW (by norm_num)).1 0 (by decide) (by decide)

/-- Witness for claim C7 at a concrete configuration with weight 1. -/
theorem claim_C7_witness :
    solve cfgThreeIter suW orcAlwaysNext 0 [[1]] [[0]] [[1]] [] [] 1 =
      solveNoRelax cfgThreeIter suW orcAlwaysNext 0 [[1]] [[0]] [[1]] [] [] 1 :=
  (claim_C7 cfgThreeIter suW orcAlwaysNext 0 [[1]] [[0]] [[1]] [] [] 1 rfl).2

end TpfaCompressible
